import Mathlib

set_option linter.unusedVariables false

/-!
Shallow embedding of the S&P 500 convergence analysis repository.

Numeric values that the Python code holds in IEEE doubles are modelled as
exact rationals (`ℚ`) where the code only performs field operations, and as
real numbers (`ℝ`) where the code applies transcendental functions
(`np.log`, `np.exp`, fractional powers).  Python `datetime` values are
modelled at day granularity as integers (`ℤ`), matching the code's use of
`(d2 - d1).days`.  A Python function that can raise is modelled as a
function into `Except String _`; NaN results are modelled with `Option`.
Warnings appended to a calculator's `calculation_warnings` list are
returned explicitly alongside the numeric result.
-/

namespace SP500

/-! ### gips_compliance.py: data model -/

/-- `ReturnCalculationMethod` enum from gips_compliance.py. -/
inductive ReturnCalculationMethod
  | time_weighted
  | money_weighted
  | modified_dietz
  | true_time_weighted
deriving DecidableEq, Repr

/-- `ComplianceLevel` enum from gips_compliance.py. -/
inductive ComplianceLevel
  | full_compliance
  | partial_compliance
  | non_compliant
deriving DecidableEq, Repr

/-- `CashFlow` dataclass: a dated flow amount with a type tag. -/
structure CashFlow where
  date : ℤ
  amount : ℚ
  flow_type : String
  description : Option String
deriving DecidableEq

/-- `PortfolioValuation` dataclass: portfolio value at a date. -/
structure PortfolioValuation where
  date : ℤ
  market_value : ℚ
  accrued_income : ℚ
  cash_balance : ℚ
deriving DecidableEq

instance : Inhabited PortfolioValuation := ⟨⟨0, 0, 0, 0⟩⟩

/-- `GIPSCalculationResult` dataclass. -/
structure GIPSCalculationResult where
  time_weighted_return : ℚ
  money_weighted_return : Option ℚ
  composite_return : Option ℚ
  calculation_method : ReturnCalculationMethod
  period_start : ℤ
  period_end : ℤ
  number_of_portfolios : ℤ
  total_assets : ℚ
  compliance_level : ComplianceLevel
  validation_notes : List String

/-- A portfolio-data dict as passed (and ignored) by
`validate_gips_compliance`. -/
def PortfolioData : Type := List (String × ℚ)

/-! ### GIPSCalculator.calculate_composite_return -/

/-- `GIPSCalculator.calculate_composite_return`: composite return from
`(return, weight)` pairs.  `asset_weighted` divides the weighted sum by the
total weight (0 if the total weight is nonpositive); `equal_weighted`
takes the arithmetic mean; any other method string raises `ValueError`. -/
def calculate_composite_return (portfolio_returns : List (ℚ × ℚ))
    (method : String) : Except String ℚ :=
  if portfolio_returns = [] then .ok 0
  else if method = "asset_weighted" then
    let total_weight := (portfolio_returns.map Prod.snd).sum
    if total_weight ≤ 0 then .ok 0
    else
      let weighted_return := (portfolio_returns.map (fun p => p.1 * p.2)).sum
      .ok (weighted_return / total_weight)
  else if method = "equal_weighted" then
    let returns := portfolio_returns.map Prod.fst
    .ok (returns.sum / returns.length)
  else .error ("Unknown composite method: " ++ method)

/-! ### GIPSCalculator.calculate_modified_dietz_return -/

/-- Sum of in-period cash flows weighted by the fraction of the period
remaining after each flow (the Modified Dietz denominator adjustment). -/
def dietzWeightedFlows (cash_flows : List CashFlow)
    (period_start period_end : ℤ) : ℚ :=
  ((cash_flows.filter fun cf =>
      period_start ≤ cf.date ∧ cf.date ≤ period_end).map fun cf =>
    cf.amount * (((period_end - cf.date : ℤ) : ℚ) /
      ((period_end - period_start : ℤ) : ℚ))).sum

/-- Sum of the raw amounts of in-period cash flows. -/
def dietzTotalFlows (cash_flows : List CashFlow)
    (period_start period_end : ℤ) : ℚ :=
  ((cash_flows.filter fun cf =>
      period_start ≤ cf.date ∧ cf.date ≤ period_end).map fun cf =>
    cf.amount).sum

/-- Warning message recorded when the Modified Dietz denominator is
nonpositive. -/
def dietzDenomWarning : String :=
  "Denominator close to zero in Modified Dietz calculation"

/-- `GIPSCalculator.calculate_modified_dietz_return`.  Raises when the
period spans no positive number of days; returns `0` with a warning when
the denominator `start_value + Σ weighted flows` is nonpositive. -/
def calculate_modified_dietz_return (start_value end_value : ℚ)
    (cash_flows : List CashFlow) (period_start period_end : ℤ) :
    Except String (ℚ × List String) :=
  let total_days := period_end - period_start
  if total_days ≤ 0 then .error "Period end must be after period start"
  else
    let weighted_cash_flows := dietzWeightedFlows cash_flows period_start period_end
    let total_cash_flows := dietzTotalFlows cash_flows period_start period_end
    if start_value + weighted_cash_flows ≤ 0 then
      .ok (0, [dietzDenomWarning])
    else
      .ok ((end_value - start_value - total_cash_flows) /
        (start_value + weighted_cash_flows), [])

/-! ### GIPSCalculator.validate_gips_compliance -/

/-- Number of compliance issues accumulated by
`validate_gips_compliance`: only the calculation-method check increments
the counter. -/
def complianceIssues (cr : GIPSCalculationResult) : ℕ :=
  if cr.calculation_method = ReturnCalculationMethod.time_weighted ∨
      cr.calculation_method = ReturnCalculationMethod.true_time_weighted
  then 0 else 1

/-- Final classification step of `validate_gips_compliance`. -/
def classifyCompliance (compliance_issues : ℕ)
    (calculation_warnings : List String) : ComplianceLevel :=
  if compliance_issues = 0 ∧ calculation_warnings.length = 0 then
    ComplianceLevel.full_compliance
  else if compliance_issues ≤ 2 then ComplianceLevel.partial_compliance
  else ComplianceLevel.non_compliant

/-- `GIPSCalculator.validate_gips_compliance`.  The first argument is the
calculator's accumulated `calculation_warnings` state; `portfolios_data`
is accepted but never read by the Python body. -/
def validate_gips_compliance (calculation_warnings : List String)
    (cr : GIPSCalculationResult) (portfolios_data : List PortfolioData) :
    ComplianceLevel × List String :=
  let notes₁ :=
    if cr.calculation_method = ReturnCalculationMethod.time_weighted ∨
        cr.calculation_method = ReturnCalculationMethod.true_time_weighted
    then ([] : List String)
    else ["GIPS requires time-weighted returns for most composites"]
  let notes₂ :=
    if cr.number_of_portfolios < 5 then
      ["Composite should include at least 5 portfolios for statistical significance"]
    else []
  let notes₃ :=
    if 0 < calculation_warnings.length then
      calculation_warnings.map (fun w => "Calculation warning: " ++ w)
    else []
  let notes₄ :=
    if cr.period_end - cr.period_start < 365 then
      ["GIPS recommends at least one year of performance history"]
    else []
  (classifyCompliance (complianceIssues cr) calculation_warnings,
    notes₁ ++ notes₂ ++ notes₃ ++ notes₄)

/-! ### GIPSCalculator.calculate_time_weighted_return -/

/-- Sub-period simple returns (with any warnings) computed by the loop in
`calculate_time_weighted_return` over consecutive valuation pairs of the
date-sorted list.  A nonpositive starting value yields a `0` sub-period
return and a warning. -/
def twrSubPeriods : List PortfolioValuation → List CashFlow →
    List ℚ × List String
  | [], _ => ([], [])
  | [_], _ => ([], [])
  | v :: w :: rest, cash_flows =>
    let tail := twrSubPeriods (w :: rest) cash_flows
    let period_cash_flows := cash_flows.filter fun cf =>
      v.date < cf.date ∧ cf.date ≤ w.date
    let net_cash_flow := (period_cash_flows.map CashFlow.amount).sum
    if v.market_value ≤ 0 then
      (0 :: tail.1,
        ("Zero or negative starting value on " ++ toString v.date) :: tail.2)
    else
      (((w.market_value - v.market_value - net_cash_flow) / v.market_value)
        :: tail.1, tail.2)

/-- `GIPSCalculator.calculate_time_weighted_return`: sorts valuations and
cash flows by date, chain-links the sub-period returns, and subtracts 1.
Raises with fewer than two valuations. -/
def calculate_time_weighted_return (valuations : List PortfolioValuation)
    (cash_flows : List CashFlow) : Except String (ℚ × List String) :=
  if valuations.length < 2 then
    .error "At least two valuations required for TWR calculation"
  else
    let vs := valuations.insertionSort (fun (a b : PortfolioValuation) => a.date ≤ b.date)
    let cfs := cash_flows.insertionSort (fun (a b : CashFlow) => a.date ≤ b.date)
    let subs := twrSubPeriods vs cfs
    .ok (subs.1.foldl (fun acc s => acc * (1 + s)) 1 - 1, subs.2)

/-! ### GIPSCalculator.calculate_money_weighted_return -/

/-- NPV of a list of `(amount, days)` flows at a rate, discounting each
flow by `(1+rate)^(days/365.25)`. -/
noncomputable def mwrNpv (flows : List (ℚ × ℤ)) (rate : ℝ) : ℝ :=
  (flows.map fun f =>
    (f.1 : ℝ) / (1 + rate) ^ ((f.2 : ℝ) / 365.25)).sum

/-- Analytic derivative of `mwrNpv` with respect to the rate, accumulated
exactly as the Python loop does. -/
noncomputable def mwrNpvDerivative (flows : List (ℚ × ℤ)) (rate : ℝ) : ℝ :=
  (flows.map fun f =>
    -((f.1 : ℝ) * ((f.2 : ℝ) / 365.25) /
      ((1 + rate) ^ ((f.2 : ℝ) / 365.25) * (1 + rate)))).sum

/-- Warning recorded when the Newton derivative is below tolerance. -/
def mwrUnstableWarning : String := "IRR calculation may be unstable"

/-- Warning recorded when the Newton loop ends without `|NPV| <
tolerance`: appended both after a `break` and after exhausting the
iteration range. -/
def mwrNonConvergenceWarning (max_iterations : ℕ) : String :=
  "IRR calculation did not converge after " ++ toString max_iterations ++
    " iterations"

/-- The Newton-Raphson loop of `calculate_money_weighted_return`,
structured over the remaining iteration count.  Returns the rate together
with the warnings the Python code appends: none on convergence, the
unstable warning followed by the non-convergence warning on a near-zero
derivative (the Python `break` still falls through to the final append),
and the non-convergence warning alone on exhaustion. -/
noncomputable def mwrNewtonLoop (flows : List (ℚ × ℤ)) (tolerance : ℝ)
    (max_iterations : ℕ) : ℕ → ℝ → ℝ × List String
  | 0, rate => (rate, [mwrNonConvergenceWarning max_iterations])
  | fuel + 1, rate =>
    if |mwrNpv flows rate| < tolerance then (rate, [])
    else if |mwrNpvDerivative flows rate| < tolerance then
      (rate, [mwrUnstableWarning, mwrNonConvergenceWarning max_iterations])
    else
      mwrNewtonLoop flows tolerance max_iterations fuel
        (rate - mwrNpv flows rate / mwrNpvDerivative flows rate)

/-- First valuation with minimal date (Python `min(valuations, key=...)`
keeps the first minimum). -/
def mwrStartValuation (valuations : List PortfolioValuation) :
    PortfolioValuation :=
  valuations.foldl (fun acc v => if v.date < acc.date then v else acc)
    valuations.headI

/-- First valuation with maximal date (Python `max(valuations, key=...)`
keeps the first maximum). -/
def mwrEndValuation (valuations : List PortfolioValuation) :
    PortfolioValuation :=
  valuations.foldl (fun acc v => if acc.date < v.date then v else acc)
    valuations.headI

/-- The `(amount, days from start)` timeline built by
`calculate_money_weighted_return`: the negated initial value at day 0,
each cash flow at its day offset, and the final value at the total day
span. -/
def mwrAllFlows (valuations : List PortfolioValuation)
    (cash_flows : List CashFlow) : List (ℚ × ℤ) :=
  let start_val := mwrStartValuation valuations
  let end_val := mwrEndValuation valuations
  (-start_val.market_value, 0) ::
    (cash_flows.map fun cf => (cf.amount, cf.date - start_val.date)) ++
    [(end_val.market_value, end_val.date - start_val.date)]

/-- `GIPSCalculator.calculate_money_weighted_return`: IRR via
Newton-Raphson from the initial guess 0.1.  Raises with fewer than two
valuations; otherwise total, returning the rate and any warnings. -/
noncomputable def calculate_money_weighted_return
    (valuations : List PortfolioValuation) (cash_flows : List CashFlow)
    (max_iterations : ℕ) (tolerance : ℝ) : Except String (ℝ × List String) :=
  if valuations.length < 2 then
    .error "At least two valuations required for MWR calculation"
  else
    .ok (mwrNewtonLoop (mwrAllFlows valuations cash_flows) tolerance
      max_iterations max_iterations 0.1)

/-! ### risk_metrics.py: RiskMetricsCalculator -/

/-- State of a `RiskMetricsCalculator`: the return series (the optional
risk-free series plays no role in `var_historical`). -/
structure RiskMetricsCalculator where
  returns : List ℚ
  risk_free_rates : Option (List ℚ)

/-- `np.percentile` with the default linear interpolation: at the
fractional position `p = q/100 * (n-1)` of the ascending-sorted data,
interpolate between the neighbouring order statistics. -/
def npPercentile (data : List ℚ) (q : ℚ) : ℚ :=
  let sorted := data.insertionSort (· ≤ ·)
  let n := data.length
  let p := q * (n - 1) / 100
  let i := (⌊p⌋).toNat
  let g := p - ⌊p⌋
  let lo := sorted.getD i 0
  let hi := sorted.getD (min (i + 1) (n - 1)) 0
  lo + g * (hi - lo)

/-- `RiskMetricsCalculator.var_historical`: NaN (modelled as `none`) with
fewer than 10 observations, otherwise the negated
`confidence_level*100`-th percentile of the returns. -/
def var_historical (c : RiskMetricsCalculator) (confidence_level : ℚ) :
    Option ℚ :=
  if c.returns.length < 10 then none
  else some (-npPercentile c.returns (confidence_level * 100))

/-! ### sp500_convergence.py: SP500Analyzer -/

/-- `FLOATING_TOLERANCE` constant from sp500_convergence.py. -/
noncomputable def FLOATING_TOLERANCE : ℝ := 1e-12

/-- `SP500Analyzer` state: the year column and the return column of the
year-sorted data frame, as parallel lists. -/
structure SP500Analyzer where
  years : List ℤ
  returns : List ℝ

/-- `SP500Analyzer.compute_rolling_cagr`: for each anchor index from the
position of `start_year`, take a `window_size`-year slice, form the
geometric total via a log-space sum, take the `window_size`-th root, and
snap magnitudes below `FLOATING_TOLERANCE` to zero.  An absent
`start_year` or an overlong first window yields the empty list. -/
noncomputable def compute_rolling_cagr (a : SP500Analyzer)
    (window_size : ℕ) (start_year : ℤ) : List (ℤ × ℝ) :=
  match a.years.findIdx? (· == start_year) with
  | none => []
  | some start_idx =>
    if a.years.length < start_idx + window_size then []
    else
      (List.range' start_idx (a.years.length - window_size + 1 - start_idx)).map
        fun i =>
          let window_returns := (a.returns.drop i).take window_size
          let log_returns := window_returns.map fun r => Real.log (1 + r)
          let total_return := Real.exp log_returns.sum
          let cagr := total_return ^ ((1 : ℝ) / (window_size : ℝ)) - 1
          let cagr := if |cagr| < FLOATING_TOLERANCE then 0 else cagr
          (a.years.getD (i + window_size - 1) 0, cagr)

/-- Python `max` over a nonempty list (left fold from the head). -/
noncomputable def listMax (l : List ℝ) : ℝ := l.foldl max l.headI

/-- Python `min` over a nonempty list (left fold from the head). -/
noncomputable def listMin (l : List ℝ) : ℝ := l.foldl min l.headI

/-- `np.argmax`: index of the first occurrence of the maximum. -/
noncomputable def argmaxIdx (l : List ℝ) : ℕ :=
  (l.enum.foldl (fun best p => if best.2 < p.2 then p else best)
    (0, l.headI)).1

/-- `np.argmin`: index of the first occurrence of the minimum. -/
noncomputable def argminIdx (l : List ℝ) : ℕ :=
  (l.enum.foldl (fun best p => if p.2 < best.2 then p else best)
    (0, l.headI)).1

/-- A value slot of the result dict of the horizon-search routines. -/
inductive RecordVal
  | str : String → RecordVal
  | real : ℝ → RecordVal
  | int : ℤ → RecordVal
  | nan : RecordVal

/-- A Python dict literal, as the ordered list of its key/value pairs. -/
def HorizonRecord : Type := List (String × RecordVal)

/-- The keys of a horizon record, in insertion order. -/
def recordKeys (r : HorizonRecord) : List String := r.map Prod.fst

/-- A window label `"{startYear}-{endYear}"`. -/
def windowLabel (window_start window_end : ℤ) : String :=
  toString window_start ++ "-" ++ toString window_end

/-- The record returned by `find_min_spread_horizon` when some horizon
meets the threshold. -/
noncomputable def spreadFoundRecord (a : SP500Analyzer) (start_year : ℤ)
    (threshold : ℝ) (start_idx : ℕ) (n : ℕ) (cagrs : List (ℤ × ℝ))
    (cagr_values : List ℝ) (spread : ℝ) : HorizonRecord :=
  let best_idx := argmaxIdx cagr_values
  let worst_idx := argminIdx cagr_values
  let best_start := a.years.getD (start_idx + best_idx) 0
  let best_end := (cagrs.getD best_idx (0, 0)).1
  let worst_start := a.years.getD (start_idx + worst_idx) 0
  let worst_end := (cagrs.getD worst_idx (0, 0)).1
  [("start_year_series", RecordVal.int start_year),
   ("threshold", RecordVal.real threshold),
   ("min_holding_years", RecordVal.int n),
   ("best_window", RecordVal.str (windowLabel best_start best_end)),
   ("best_cagr", RecordVal.real ((cagrs.getD best_idx (0, 0)).2)),
   ("worst_window", RecordVal.str (windowLabel worst_start worst_end)),
   ("worst_cagr", RecordVal.real ((cagrs.getD worst_idx (0, 0)).2)),
   ("spread", RecordVal.real spread)]

/-- The record returned by `find_min_spread_horizon` when no horizon meets
the threshold but windows exist at the maximum feasible horizon.  Note the
absence of a `worst_window` entry. -/
noncomputable def spreadNotMetRecord (a : SP500Analyzer) (start_year : ℤ)
    (threshold : ℝ) (start_idx : ℕ) (max_feasible : ℕ)
    (cagrs : List (ℤ × ℝ)) (cagr_values : List ℝ) (spread : ℝ) :
    HorizonRecord :=
  let best_idx := argmaxIdx cagr_values
  let worst_idx := argminIdx cagr_values
  let best_start := a.years.getD (start_idx + best_idx) 0
  let best_end := (cagrs.getD best_idx (0, 0)).1
  [("start_year_series", RecordVal.int start_year),
   ("threshold", RecordVal.real threshold),
   ("min_holding_years", RecordVal.int max_feasible),
   ("best_window", RecordVal.str (windowLabel best_start best_end)),
   ("best_cagr", RecordVal.real ((cagrs.getD best_idx (0, 0)).2)),
   ("worst_cagr", RecordVal.real ((cagrs.getD worst_idx (0, 0)).2)),
   ("spread", RecordVal.real spread),
   ("note", RecordVal.str "Threshold not met - max feasible horizon used")]

/-- The record returned by `find_min_spread_horizon` when no horizon has
any window at all. -/
noncomputable def spreadNoFeasibleRecord (start_year : ℤ) (threshold : ℝ) :
    HorizonRecord :=
  [("start_year_series", RecordVal.int start_year),
   ("threshold", RecordVal.real threshold),
   ("min_holding_years", RecordVal.str "N/A"),
   ("best_window", RecordVal.str "N/A"),
   ("best_cagr", RecordVal.nan),
   ("worst_window", RecordVal.str "N/A"),
   ("worst_cagr", RecordVal.nan),
   ("spread", RecordVal.nan),
   ("note", RecordVal.str "No feasible windows")]

/-- The `for n in range(1, max_feasible + 1)` search loop of
`find_min_spread_horizon`, recursing over the remaining horizon count. -/
noncomputable def spreadSearchLoop (a : SP500Analyzer) (start_year : ℤ)
    (threshold : ℝ) (start_idx : ℕ) : ℕ → ℕ → Option HorizonRecord
  | _, 0 => none
  | n, fuel + 1 =>
    let cagrs := compute_rolling_cagr a n start_year
    if cagrs = [] then spreadSearchLoop a start_year threshold start_idx
      (n + 1) fuel
    else
      let cagr_values := cagrs.map Prod.snd
      let spread := listMax cagr_values - listMin cagr_values
      if spread ≤ threshold then
        some (spreadFoundRecord a start_year threshold start_idx n cagrs
          cagr_values spread)
      else spreadSearchLoop a start_year threshold start_idx (n + 1) fuel

/-- `SP500Analyzer.find_min_spread_horizon`.  `self.years.index` raises an
uncaught `ValueError` when `start_year` is absent; otherwise the search
loop runs and one of the three record shapes is returned. -/
noncomputable def find_min_spread_horizon (a : SP500Analyzer)
    (start_year : ℤ) (threshold : ℝ) : Except String HorizonRecord :=
  match a.years.findIdx? (· == start_year) with
  | none => .error "ValueError: start_year is not in list"
  | some start_idx =>
    let max_feasible := a.years.length - start_idx
    match spreadSearchLoop a start_year threshold start_idx 1 max_feasible with
    | some record => .ok record
    | none =>
      let cagrs := compute_rolling_cagr a max_feasible start_year
      if cagrs = [] then .ok (spreadNoFeasibleRecord start_year threshold)
      else
        let cagr_values := cagrs.map Prod.snd
        let spread := listMax cagr_values - listMin cagr_values
        .ok (spreadNotMetRecord a start_year threshold start_idx
          max_feasible cagrs cagr_values spread)

/-! ## Theorems -/

/-- C2 counterexample: a portfolio list whose weights sum to 2 (not 1)
does not make `calculate_composite_return` raise; the call returns the
normalized weighted return. -/
theorem composite_nonunit_weights_do_not_raise :
    (([((1 : ℚ)/10, (2 : ℚ))].map Prod.snd).sum ≠ 1) ∧
    calculate_composite_return [((1 : ℚ)/10, 2)] "asset_weighted" =
      .ok (1/10) := by
  refine ⟨by norm_num, ?_⟩
  norm_num [calculate_composite_return]

/-- C2 (amended): `calculate_composite_return` raises exactly when the
portfolio list is nonempty and the method string is neither
`"asset_weighted"` nor `"equal_weighted"`; portfolio weights that do not
sum to 1 never raise, since `asset_weighted` normalizes by the total
weight. -/
theorem composite_raises_iff_unknown_method :
    ∀ (portfolio_returns : List (ℚ × ℚ)) (method : String),
      (∃ e, calculate_composite_return portfolio_returns method = .error e) ↔
        (portfolio_returns ≠ [] ∧ method ≠ "asset_weighted" ∧
          method ≠ "equal_weighted") := by
  intro prs method
  simp only [calculate_composite_return]
  split_ifs <;> simp_all

/-- C10: `validate_gips_compliance` accumulates at most one compliance
issue (only the calculation-method check increments the counter), so it
never returns `NON_COMPLIANT`: the level is always `FULL_COMPLIANCE` or
`PARTIAL_COMPLIANCE`. -/
theorem validate_never_non_compliant :
    ∀ (ws : List String) (cr : GIPSCalculationResult)
      (pd : List PortfolioData),
      complianceIssues cr ≤ 1 ∧
      ((validate_gips_compliance ws cr pd).1 =
          ComplianceLevel.full_compliance ∨
        (validate_gips_compliance ws cr pd).1 =
          ComplianceLevel.partial_compliance) ∧
      (validate_gips_compliance ws cr pd).1 ≠
        ComplianceLevel.non_compliant := by
  intro ws cr pd
  have hI : complianceIssues cr ≤ 1 := by
    unfold complianceIssues; split_ifs <;> simp
  have hcl : classifyCompliance (complianceIssues cr) ws =
      ComplianceLevel.full_compliance ∨
      classifyCompliance (complianceIssues cr) ws =
      ComplianceLevel.partial_compliance := by
    unfold classifyCompliance
    split_ifs with h1 h2
    · exact Or.inl rfl
    · exact Or.inr rfl
    · omega
  have hv : (validate_gips_compliance ws cr pd).1 =
      classifyCompliance (complianceIssues cr) ws := rfl
  refine ⟨hI, ?_, ?_⟩
  · rw [hv]; exact hcl
  · rw [hv]
    rcases hcl with h | h <;> rw [h] <;> simp

/-- C3: the classification step of `validate_gips_compliance` maps zero
issues with zero warnings to `FULL_COMPLIANCE`, one or two issues to
`PARTIAL_COMPLIANCE`, and more than two issues to `NON_COMPLIANT`;
`validate_gips_compliance` classifies by exactly this rule on its
accumulated issue count, and surfaces every accumulated calculation
warning as a validation note. -/
theorem validate_classification :
    ∀ (issues : ℕ) (ws : List String) (cr : GIPSCalculationResult)
      (pd : List PortfolioData),
      (issues = 0 ∧ ws = [] →
        classifyCompliance issues ws = ComplianceLevel.full_compliance) ∧
      (1 ≤ issues ∧ issues ≤ 2 →
        classifyCompliance issues ws = ComplianceLevel.partial_compliance) ∧
      (2 < issues →
        classifyCompliance issues ws = ComplianceLevel.non_compliant) ∧
      ((validate_gips_compliance ws cr pd).1 =
        classifyCompliance (complianceIssues cr) ws) ∧
      (∀ w ∈ ws, ("Calculation warning: " ++ w) ∈
        (validate_gips_compliance ws cr pd).2) := by
  intro issues ws cr pd
  refine ⟨?_, ?_, ?_, rfl, ?_⟩
  · rintro ⟨h0, hw⟩
    simp [classifyCompliance, h0, hw]
  · rintro ⟨h1, h2⟩
    simp [classifyCompliance, h2]
    exact fun h0 => absurd h0 (by omega)
  · intro h
    have hle : ¬ issues ≤ 2 := by omega
    simp [classifyCompliance, hle]
    exact fun h0 => absurd h0 (by omega)
  · intro w hw
    have hlen : 0 < ws.length := List.length_pos.mpr (List.ne_nil_of_mem hw)
    simp only [validate_gips_compliance, hlen, if_true, List.append_assoc,
      List.mem_append, List.mem_map]
    exact Or.inr (Or.inr (Or.inl ⟨w, hw, rfl⟩))

/-- C3 witness: the classification rule and the warning surfacing at
concrete inputs. -/
theorem validate_classification_witness :
    classifyCompliance 0 [] = ComplianceLevel.full_compliance ∧
    classifyCompliance 2 ["w"] = ComplianceLevel.partial_compliance ∧
    classifyCompliance 3 [] = ComplianceLevel.non_compliant ∧
    ("Calculation warning: w" ∈
      (validate_gips_compliance ["w"]
        ⟨0, none, none, ReturnCalculationMethod.money_weighted, 0, 400, 6,
          0, ComplianceLevel.full_compliance, []⟩ []).2) := by
  refine ⟨?_, ?_, ?_, ?_⟩
  · exact (validate_classification 0 []
      ⟨0, none, none, ReturnCalculationMethod.money_weighted, 0, 400, 6, 0,
        ComplianceLevel.full_compliance, []⟩ []).1 ⟨rfl, rfl⟩
  · exact (validate_classification 2 ["w"]
      ⟨0, none, none, ReturnCalculationMethod.money_weighted, 0, 400, 6, 0,
        ComplianceLevel.full_compliance, []⟩ []).2.1 (by omega)
  · exact (validate_classification 3 []
      ⟨0, none, none, ReturnCalculationMethod.money_weighted, 0, 400, 6, 0,
        ComplianceLevel.full_compliance, []⟩ []).2.2.1 (by omega)
  · exact (validate_classification 3 ["w"]
      ⟨0, none, none, ReturnCalculationMethod.money_weighted, 0, 400, 6, 0,
        ComplianceLevel.full_compliance, []⟩ []).2.2.2.2 "w" (by simp)

/-- C8: `calculate_modified_dietz_return` raises exactly when the end of
the period is not strictly after its start; with a valid period, a
nonpositive denominator `start_value + Σ weighted flows` yields `0`
together with the denominator warning rather than raising, and a positive
denominator yields the Modified Dietz quotient with no warning. -/
theorem dietz_error_iff_and_denominator_guard :
    ∀ (sv ev : ℚ) (cfs : List CashFlow) (ps pe : ℤ),
      ((∃ e, calculate_modified_dietz_return sv ev cfs ps pe = .error e) ↔
        pe ≤ ps) ∧
      (ps < pe → sv + dietzWeightedFlows cfs ps pe ≤ 0 →
        calculate_modified_dietz_return sv ev cfs ps pe =
          .ok (0, [dietzDenomWarning])) ∧
      (ps < pe → 0 < sv + dietzWeightedFlows cfs ps pe →
        calculate_modified_dietz_return sv ev cfs ps pe =
          .ok ((ev - sv - dietzTotalFlows cfs ps pe) /
            (sv + dietzWeightedFlows cfs ps pe), [])) := by
  intro sv ev cfs ps pe
  refine ⟨?_, ?_, ?_⟩
  · simp only [calculate_modified_dietz_return]
    split_ifs with h1 h2 <;> simp <;> omega
  · intro hlt hden
    simp only [calculate_modified_dietz_return]
    have h1 : ¬ (pe - ps ≤ 0) := by omega
    rw [if_neg h1, if_pos hden]
  · intro hlt hden
    simp only [calculate_modified_dietz_return]
    have h1 : ¬ (pe - ps ≤ 0) := by omega
    have h2 : ¬ (sv + dietzWeightedFlows cfs ps pe ≤ 0) := by linarith
    rw [if_neg h1, if_neg h2]

/-- C8 witness: a degenerate period raises; a valid period with a
nonpositive denominator returns `0` with the warning. -/
theorem dietz_guard_witness :
    (∃ e, calculate_modified_dietz_return 7 3 [] 5 5 = .error e) ∧
    calculate_modified_dietz_return (-5) 3 [] 0 1 =
      .ok (0, [dietzDenomWarning]) := by
  constructor
  · exact (dietz_error_iff_and_denominator_guard 7 3 [] 5 5).1.mpr le_rfl
  · refine (dietz_error_iff_and_denominator_guard (-5) 3 [] 0 1).2.1
      (by omega) ?_
    simp [dietzWeightedFlows]

/-- The chain-link left fold of `calculate_time_weighted_return` equals an
accumulator times the product of the growth factors. -/
theorem twr_foldl_eq_prod (l : List ℚ) (a : ℚ) :
    l.foldl (fun acc s => acc * (1 + s)) a =
      a * (l.map (fun s => 1 + s)).prod := by
  induction l generalizing a with
  | nil => simp
  | cons x xs ih => simp [ih, mul_assoc]

/-- With no cash flows and positive market values, the product of the
growth factors of the sub-period returns telescopes to last over first,
and no warnings are recorded. -/
theorem twr_chain_telescopes (vs : List PortfolioValuation)
    (v : PortfolioValuation)
    (hpos : ∀ u ∈ v :: vs, 0 < u.market_value) :
    ((twrSubPeriods (v :: vs) []).1.map (fun s => 1 + s)).prod =
      ((v :: vs).getLast (List.cons_ne_nil v vs)).market_value /
        v.market_value ∧
    (twrSubPeriods (v :: vs) []).2 = [] := by
  induction vs generalizing v with
  | nil =>
    have hv : v.market_value ≠ 0 := ne_of_gt (hpos v (by simp))
    simp [twrSubPeriods, div_self hv]
  | cons w rest ih =>
    have hv : 0 < v.market_value := hpos v (by simp)
    have hw : 0 < w.market_value := hpos w (by simp)
    have hpos' : ∀ u ∈ w :: rest, 0 < u.market_value := fun u hu =>
      hpos u (List.mem_cons_of_mem v hu)
    obtain ⟨ih1, ih2⟩ := ih w hpos'
    have hnotle : ¬ v.market_value ≤ 0 := not_le.mpr hv
    constructor
    · simp only [twrSubPeriods, List.filter_nil, List.map_nil, List.sum_nil,
        if_neg hnotle, List.map_cons, List.prod_cons, ih1,
        List.getLast_cons (List.cons_ne_nil w rest)]
      have h1 : (1 : ℚ) + (w.market_value - v.market_value - 0) /
          v.market_value = w.market_value / v.market_value := by
        field_simp
      rw [h1]
      rw [div_mul_div_comm, mul_comm v.market_value w.market_value]
      exact mul_div_mul_left _ _ (ne_of_gt hw)
    · simp only [twrSubPeriods, if_neg hnotle]
      exact ih2

/-- C4: with at least two valuations, all market values positive and no
cash flows, `calculate_time_weighted_return` equals the whole-period
simple return of the date-sorted valuation series: final market value
over initial market value, minus 1, with no warnings. -/
theorem twr_zero_flows_telescopes :
    ∀ (valuations : List PortfolioValuation),
      2 ≤ valuations.length →
      (∀ v ∈ valuations, 0 < v.market_value) →
      ∃ vfirst vlast,
        (valuations.insertionSort (fun (a b : PortfolioValuation) => a.date ≤ b.date)).head? =
          some vfirst ∧
        (valuations.insertionSort (fun (a b : PortfolioValuation) => a.date ≤ b.date)).getLast? =
          some vlast ∧
        calculate_time_weighted_return valuations [] =
          .ok (vlast.market_value / vfirst.market_value - 1, []) := by
  intro vals h2 hpos
  have hlen : ¬ vals.length < 2 := by omega
  have hperm : List.Perm
      (vals.insertionSort (fun (a b : PortfolioValuation) => a.date ≤ b.date))
      vals :=
    List.perm_insertionSort _ _
  have hsl : (vals.insertionSort (fun (a b : PortfolioValuation) => a.date ≤ b.date)).length =
      vals.length := hperm.length_eq
  have hsne : (vals.insertionSort (fun (a b : PortfolioValuation) => a.date ≤ b.date)) ≠ [] := by
    intro h
    rw [h] at hsl
    simp at hsl
    omega
  obtain ⟨v, vs, hcons⟩ := List.exists_cons_of_ne_nil hsne
  have hpos' : ∀ u ∈ v :: vs, 0 < u.market_value := by
    intro u hu
    exact hpos u (hperm.mem_iff.mp (hcons ▸ hu))
  obtain ⟨hchain, hwarn⟩ := twr_chain_telescopes vs v hpos'
  refine ⟨v, (v :: vs).getLast (List.cons_ne_nil v vs), ?_, ?_, ?_⟩
  · rw [hcons]; rfl
  · rw [hcons]
    exact List.getLast?_eq_getLast _ _
  · simp only [calculate_time_weighted_return, if_neg hlen]
    have hnilsort : (([] : List CashFlow).insertionSort
        fun a b => a.date ≤ b.date) = [] := rfl
    rw [hnilsort, hcons, twr_foldl_eq_prod, hchain, hwarn, one_mul]

/-- C4 witness: two valuations, no flows: the TWR is 110/100 - 1. -/
theorem twr_zero_flows_witness :
    ∃ vfirst vlast,
      (([⟨0, 100, 0, 0⟩, ⟨1, 110, 0, 0⟩] :
          List PortfolioValuation).insertionSort
        fun a b => a.date ≤ b.date).head? = some vfirst ∧
      (([⟨0, 100, 0, 0⟩, ⟨1, 110, 0, 0⟩] :
          List PortfolioValuation).insertionSort
        fun a b => a.date ≤ b.date).getLast? = some vlast ∧
      calculate_time_weighted_return [⟨0, 100, 0, 0⟩, ⟨1, 110, 0, 0⟩] [] =
        .ok (vlast.market_value / vfirst.market_value - 1, []) := by
  refine twr_zero_flows_telescopes _ (by simp) ?_
  intro v hv
  fin_cases hv <;> norm_num

/-- The Newton loop of `calculate_money_weighted_return` always lands in
one of three states: converged with no warning, stopped early with the
unstable warning, or exhausted with the non-convergence warning. -/
theorem mwrNewtonLoop_cases (flows : List (ℚ × ℤ)) (tol : ℝ)
    (maxIter : ℕ) :
    ∀ (fuel : ℕ) (rate : ℝ),
      ((mwrNewtonLoop flows tol maxIter fuel rate).2 = [] ∧
        |mwrNpv flows (mwrNewtonLoop flows tol maxIter fuel rate).1| < tol) ∨
      (mwrNewtonLoop flows tol maxIter fuel rate).2 =
        [mwrUnstableWarning, mwrNonConvergenceWarning maxIter] ∨
      (mwrNewtonLoop flows tol maxIter fuel rate).2 =
        [mwrNonConvergenceWarning maxIter] := by
  intro fuel
  induction fuel with
  | zero => intro rate; right; right; rfl
  | succ n ih =>
    intro rate
    simp only [mwrNewtonLoop]
    split_ifs with h1 h2
    · exact Or.inl ⟨rfl, h1⟩
    · exact Or.inr (Or.inl rfl)
    · exact ih _

/-- C9: with at least two valuations `calculate_money_weighted_return`
never raises; it either converges to a rate whose NPV magnitude is below
tolerance with no warning, or records the unstable warning and stops
early, or exhausts the iteration budget and returns the last rate with
the non-convergence warning. -/
theorem mwr_never_raises_trichotomy :
    ∀ (valuations : List PortfolioValuation) (cash_flows : List CashFlow)
      (max_iterations : ℕ) (tolerance : ℝ),
      2 ≤ valuations.length →
      ∃ rate warns,
        calculate_money_weighted_return valuations cash_flows
          max_iterations tolerance = .ok (rate, warns) ∧
        ((warns = [] ∧
            |mwrNpv (mwrAllFlows valuations cash_flows) rate| < tolerance) ∨
          warns = [mwrUnstableWarning,
            mwrNonConvergenceWarning max_iterations] ∨
          warns = [mwrNonConvergenceWarning max_iterations]) := by
  intro vals cfs maxIter tol h2
  have hlen : ¬ vals.length < 2 := by omega
  refine ⟨(mwrNewtonLoop (mwrAllFlows vals cfs) tol maxIter maxIter 0.1).1,
    (mwrNewtonLoop (mwrAllFlows vals cfs) tol maxIter maxIter 0.1).2,
    ?_, ?_⟩
  · simp only [calculate_money_weighted_return, if_neg hlen]
  · exact mwrNewtonLoop_cases (mwrAllFlows vals cfs) tol maxIter maxIter 0.1

/-- C9 witness: the trichotomy at a concrete two-valuation input with the
Python default iteration budget and tolerance. -/
theorem mwr_never_raises_witness :
    ∃ rate warns,
      calculate_money_weighted_return
        [⟨0, 100, 0, 0⟩, ⟨365, 110, 0, 0⟩] [] 100 (1e-6) =
        .ok (rate, warns) ∧
      ((warns = [] ∧
          |mwrNpv (mwrAllFlows [⟨0, 100, 0, 0⟩, ⟨365, 110, 0, 0⟩] [])
            rate| < 1e-6) ∨
        warns = [mwrUnstableWarning, mwrNonConvergenceWarning 100] ∨
        warns = [mwrNonConvergenceWarning 100]) :=
  mwr_never_raises_trichotomy [⟨0, 100, 0, 0⟩, ⟨365, 110, 0, 0⟩] [] 100
    (1e-6) (by norm_num)

/-- C6: `compute_rolling_cagr` is total; an absent `start_year` yields the
empty list, as does a first window extending past the end of the series,
and otherwise exactly one `(end_year, cagr)` pair is produced per anchor
position. -/
theorem compute_rolling_cagr_total :
    ∀ (a : SP500Analyzer) (window_size : ℕ) (start_year : ℤ),
      1 ≤ window_size →
      (start_year ∉ a.years →
        compute_rolling_cagr a window_size start_year = []) ∧
      (∀ start_idx, a.years.findIdx? (· == start_year) = some start_idx →
        (a.years.length < start_idx + window_size →
          compute_rolling_cagr a window_size start_year = []) ∧
        (start_idx + window_size ≤ a.years.length →
          (compute_rolling_cagr a window_size start_year).length =
            a.years.length - window_size + 1 - start_idx)) := by
  intro a w y hw
  constructor
  · intro habs
    have hnone : a.years.findIdx? (· == y) = none := by
      rw [List.findIdx?_eq_none_iff]
      intro x hx
      simp only [beq_eq_false_iff_ne, ne_eq]
      intro hxy
      exact habs (hxy ▸ hx)
    simp [compute_rolling_cagr, hnone]
  · intro idx hidx
    constructor
    · intro hlt
      simp [compute_rolling_cagr, hidx, hlt]
    · intro hle
      have hnlt : ¬ (a.years.length < idx + w) := by omega
      simp [compute_rolling_cagr, hidx, hnlt]

/-- C6 witness: a three-year series with a five-year window yields the
empty list from the present 1990 anchor, an absent 1991 anchor yields the
empty list, and a one-year window from 1990 yields three pairs. -/
theorem compute_rolling_cagr_total_witness :
    compute_rolling_cagr ⟨[1990, 1991, 1992], [1, 2, 3]⟩ 5 1990 = [] ∧
    compute_rolling_cagr ⟨[1990, 1992, 1993], [1, 2, 3]⟩ 5 1991 = [] ∧
    (compute_rolling_cagr ⟨[1990, 1991, 1992], [1, 2, 3]⟩ 1 1990).length =
      3 := by
  refine ⟨?_, ?_, ?_⟩
  · exact ((compute_rolling_cagr_total ⟨[1990, 1991, 1992], [1, 2, 3]⟩ 5
      1990 (by norm_num)).2 0 (by rfl)).1 (by norm_num)
  · exact (compute_rolling_cagr_total ⟨[1990, 1992, 1993], [1, 2, 3]⟩ 5
      1991 (by norm_num)).1 (by decide)
  · exact ((compute_rolling_cagr_total ⟨[1990, 1991, 1992], [1, 2, 3]⟩ 1
      1990 (by norm_num)).2 0 (by rfl)).2 (by norm_num)

/-- For a singleton series, the single-year rolling CAGR is the recorded
return after tolerance snapping. -/
theorem rolling_cagr_singleton (y : ℤ) (r : ℝ) (hr : 0 < 1 + r) :
    compute_rolling_cagr ⟨[y], [r]⟩ 1 y =
      [(y, if |r| < FLOATING_TOLERANCE then 0 else r)] := by
  have hfind : ([y] : List ℤ).findIdx? (· == y) = some 0 := by
    simp [List.findIdx?]
  simp only [compute_rolling_cagr, hfind]
  norm_num [List.range', Real.exp_log hr]

/-- C5 counterexample: a single-year return of `10⁻¹³` is emitted as a
CAGR of exactly `0` (snapped by the `1e-12` tolerance), not as the
recorded return. -/
theorem rolling_cagr_window_one_not_exact :
    compute_rolling_cagr ⟨[2000], [(1 : ℝ)/10^13]⟩ 1 2000 = [(2000, 0)] ∧
    ((1 : ℝ)/10^13 ≠ 0) := by
  constructor
  · rw [rolling_cagr_singleton 2000 ((1 : ℝ)/10^13) (by norm_num)]
    have htol : |(1 : ℝ)/10^13| < FLOATING_TOLERANCE := by
      rw [abs_of_pos (by norm_num)]
      show (1 : ℝ)/10^13 < 1e-12
      norm_num
    rw [if_pos htol]
  · norm_num

/-- C5 (amended): with window size 1, every emitted pair carries the
year's recorded return after tolerance snapping: exactly the return when
its magnitude is at least `FLOATING_TOLERANCE`, and `0` otherwise
(assuming all returns exceed −1 so the log-exp round trip is exact). -/
theorem rolling_cagr_window_one_snap :
    ∀ (a : SP500Analyzer) (y : ℤ),
      a.years.length = a.returns.length →
      (∀ r ∈ a.returns, -1 < r) →
      ∀ p ∈ compute_rolling_cagr a 1 y,
        ∃ i, ∃ h : i < a.returns.length,
          p.1 = a.years.getD i 0 ∧
          p.2 = if |a.returns.get ⟨i, h⟩| < FLOATING_TOLERANCE then 0
            else a.returns.get ⟨i, h⟩ := by
  intro a y hlen hgt p hp
  rcases hfind : a.years.findIdx? (· == y) with _ | idx
  · simp [compute_rolling_cagr, hfind] at hp
  · simp only [compute_rolling_cagr, hfind] at hp
    by_cases hlt : a.years.length < idx + 1
    · rw [if_pos hlt] at hp
      simp at hp
    · rw [if_neg hlt] at hp
      rw [List.mem_map] at hp
      obtain ⟨i, hi, hpe⟩ := hp
      rw [List.mem_range'_1] at hi
      have hiy : i < a.years.length := by omega
      have hilen : i < a.returns.length := by omega
      have hmem : a.returns.get ⟨i, hilen⟩ ∈ a.returns :=
        List.get_mem a.returns i hilen
      have hpos : (0 : ℝ) < 1 + a.returns.get ⟨i, hilen⟩ := by
        have := hgt _ hmem
        linarith
      have hdrop : a.returns.drop i =
          a.returns.get ⟨i, hilen⟩ :: a.returns.drop (i + 1) := by
        rw [List.drop_eq_getElem_cons hilen]
        rfl
      refine ⟨i, hilen, ?_, ?_⟩
      · rw [← hpe]
        simp
      · rw [← hpe]
        show (if |Real.exp ((((a.returns.drop i).take 1).map
            (fun r => Real.log (1 + r))).sum) ^
              ((1 : ℝ) / ((1 : ℕ) : ℝ)) - 1| < FLOATING_TOLERANCE then
            (0 : ℝ)
          else Real.exp ((((a.returns.drop i).take 1).map
            (fun r => Real.log (1 + r))).sum) ^
              ((1 : ℝ) / ((1 : ℕ) : ℝ)) - 1) = _
        rw [hdrop]
        simp only [List.take_succ_cons, List.take_zero, List.map_cons,
          List.map_nil, List.sum_cons, List.sum_nil, add_zero, Nat.cast_one,
          div_one, Real.rpow_one, List.get_eq_getElem]
        have hpos2 : (0 : ℝ) < 1 + a.returns[i] := hpos
        rw [Real.exp_log hpos2, add_sub_cancel_left]

/-- C5 witness: the amended snap property at the concrete pair emitted
for a one-year series with return one half. -/
theorem rolling_cagr_window_one_snap_witness :
    ((2000 : ℤ), (1 : ℝ)/2) ∈
      compute_rolling_cagr ⟨[2000], [(1 : ℝ)/2]⟩ 1 2000 ∧
    ∃ i, ∃ h : i < ([(1 : ℝ)/2] : List ℝ).length,
      ((2000 : ℤ), (1 : ℝ)/2).1 = ([(2000 : ℤ)]).getD i 0 ∧
      ((2000 : ℤ), (1 : ℝ)/2).2 =
        if |([(1 : ℝ)/2] : List ℝ).get ⟨i, h⟩| < FLOATING_TOLERANCE
        then 0 else ([(1 : ℝ)/2] : List ℝ).get ⟨i, h⟩ := by
  have hnosnap : ¬ |(1 : ℝ)/2| < FLOATING_TOLERANCE := by
    rw [abs_of_pos (by norm_num)]
    show ¬ (1 : ℝ)/2 < 1e-12
    norm_num
  have hmem : ((2000 : ℤ), (1 : ℝ)/2) ∈
      compute_rolling_cagr ⟨[2000], [(1 : ℝ)/2]⟩ 1 2000 := by
    rw [rolling_cagr_singleton 2000 ((1 : ℝ)/2) (by norm_num),
      if_neg hnosnap]
    simp
  exact ⟨hmem, rolling_cagr_window_one_snap ⟨[2000], [(1 : ℝ)/2]⟩ 2000
    (by simp)
    (by intro r hr; rw [List.mem_singleton] at hr; rw [hr]; norm_num)
    _ hmem⟩

/-- In a `(· ≤ ·)`-sorted list, `getD` is monotone in the index as long
as the larger index is in range. -/
theorem sorted_getD_mono (l : List ℚ) (hs : l.Sorted (· ≤ ·)) :
    ∀ i j : ℕ, i ≤ j → j < l.length → l.getD i 0 ≤ l.getD j 0 := by
  intro i j hij hj
  have hi : i < l.length := lt_of_le_of_lt hij hj
  rw [List.getD_eq_getElem l 0 hi, List.getD_eq_getElem l 0 hj]
  exact hs.rel_get_of_le (Fin.mk_le_mk.mpr hij)

/-- The linear interpolation of `np.percentile` on a sorted list is
monotone in the fractional position. -/
theorem percInterp_mono (s : List ℚ) (hs : s.Sorted (· ≤ ·)) (n : ℕ)
    (hn : s.length = n) (hn1 : 1 ≤ n) (p1 p2 : ℚ)
    (h0 : 0 ≤ p1) (h12 : p1 ≤ p2) (htop : p2 ≤ (n : ℚ) - 1) :
    s.getD (⌊p1⌋).toNat 0 + (p1 - ⌊p1⌋) *
      (s.getD (min ((⌊p1⌋).toNat + 1) (n - 1)) 0 -
        s.getD (⌊p1⌋).toNat 0) ≤
    s.getD (⌊p2⌋).toNat 0 + (p2 - ⌊p2⌋) *
      (s.getD (min ((⌊p2⌋).toNat + 1) (n - 1)) 0 -
        s.getD (⌊p2⌋).toNat 0) := by
  have h02 : 0 ≤ p2 := le_trans h0 h12
  have hf1 : (0 : ℤ) ≤ ⌊p1⌋ := Int.floor_nonneg.mpr h0
  have hf2 : (0 : ℤ) ≤ ⌊p2⌋ := Int.floor_nonneg.mpr h02
  have hub2 : ⌊p2⌋ ≤ (n : ℤ) - 1 := by
    have hcast : ((n : ℚ) - 1) = (((n : ℤ) - 1 : ℤ) : ℚ) := by push_cast; ring
    have := Int.floor_mono htop
    rwa [hcast, Int.floor_intCast] at this
  have hfm : ⌊p1⌋ ≤ ⌊p2⌋ := Int.floor_mono h12
  have hi2n : (⌊p2⌋).toNat ≤ n - 1 := by omega
  have hi1n : (⌊p1⌋).toNat ≤ n - 1 := by omega
  have hi12 : (⌊p1⌋).toNat ≤ (⌊p2⌋).toNat := by omega
  have hg1a : 0 ≤ p1 - ⌊p1⌋ := by
    have := Int.floor_le p1; linarith
  have hg1b : p1 - ⌊p1⌋ < 1 := by
    have := Int.lt_floor_add_one p1; push_cast at this ⊢; linarith
  have hg2a : 0 ≤ p2 - ⌊p2⌋ := by
    have := Int.floor_le p2; linarith
  have hg2b : p2 - ⌊p2⌋ < 1 := by
    have := Int.lt_floor_add_one p2; push_cast at this ⊢; linarith
  have hlohi1 : s.getD (⌊p1⌋).toNat 0 ≤
      s.getD (min ((⌊p1⌋).toNat + 1) (n - 1)) 0 :=
    sorted_getD_mono s hs _ _ (by omega) (by rw [hn]; omega)
  have hlohi2 : s.getD (⌊p2⌋).toNat 0 ≤
      s.getD (min ((⌊p2⌋).toNat + 1) (n - 1)) 0 :=
    sorted_getD_mono s hs _ _ (by omega) (by rw [hn]; omega)
  rcases Nat.eq_or_lt_of_le hi12 with heq | hlt
  · have hfe : ⌊p1⌋ = ⌊p2⌋ := by omega
    have hfeq : ((⌊p1⌋ : ℤ) : ℚ) = ((⌊p2⌋ : ℤ) : ℚ) := by exact_mod_cast hfe
    rw [heq]
    have hgle : p1 - ⌊p1⌋ ≤ p2 - ⌊p2⌋ := by rw [← hfeq]; linarith
    have hmul := mul_le_mul_of_nonneg_right hgle
      (sub_nonneg.mpr hlohi2)
    linarith
  · have hup : s.getD (⌊p1⌋).toNat 0 + (p1 - ⌊p1⌋) *
        (s.getD (min ((⌊p1⌋).toNat + 1) (n - 1)) 0 -
          s.getD (⌊p1⌋).toNat 0) ≤
        s.getD (min ((⌊p1⌋).toNat + 1) (n - 1)) 0 := by
      have hkey : s.getD (⌊p1⌋).toNat 0 + (p1 - ⌊p1⌋) *
          (s.getD (min ((⌊p1⌋).toNat + 1) (n - 1)) 0 -
            s.getD (⌊p1⌋).toNat 0) =
          s.getD (min ((⌊p1⌋).toNat + 1) (n - 1)) 0 -
            (1 - (p1 - ⌊p1⌋)) *
              (s.getD (min ((⌊p1⌋).toNat + 1) (n - 1)) 0 -
                s.getD (⌊p1⌋).toNat 0) := by ring
      rw [hkey]
      have := mul_nonneg (by linarith : (0 : ℚ) ≤ 1 - (p1 - ⌊p1⌋))
        (sub_nonneg.mpr hlohi1)
      linarith
  -- the first interpolant is at most its upper neighbour, which is at
  -- most the second interpolant's lower neighbour
    have hmid : s.getD (min ((⌊p1⌋).toNat + 1) (n - 1)) 0 ≤
        s.getD (⌊p2⌋).toNat 0 :=
      sorted_getD_mono s hs _ _ (by omega) (by rw [hn]; omega)
    have hlow : s.getD (⌊p2⌋).toNat 0 ≤
        s.getD (⌊p2⌋).toNat 0 + (p2 - ⌊p2⌋) *
          (s.getD (min ((⌊p2⌋).toNat + 1) (n - 1)) 0 -
            s.getD (⌊p2⌋).toNat 0) := by
      have := mul_nonneg hg2a (sub_nonneg.mpr hlohi2)
      linarith
    linarith

/-- `np.percentile` with linear interpolation is monotone in the
percentile rank on a nonempty data list. -/
theorem npPercentile_mono (data : List ℚ) (hne : data ≠ [])
    (q1 q2 : ℚ) (h0 : 0 ≤ q1) (h12 : q1 ≤ q2) (h100 : q2 ≤ 100) :
    npPercentile data q1 ≤ npPercentile data q2 := by
  have hn1 : 1 ≤ data.length := List.length_pos.mpr hne
  have hc1 : (1 : ℚ) ≤ (data.length : ℚ) := by exact_mod_cast hn1
  have hs : (data.insertionSort (· ≤ ·)).Sorted (· ≤ ·) :=
    List.sorted_insertionSort _ _
  have hlen : (data.insertionSort (· ≤ ·)).length = data.length :=
    (List.perm_insertionSort _ _).length_eq
  simp only [npPercentile]
  apply percInterp_mono _ hs data.length hlen hn1
  · exact div_nonneg (mul_nonneg h0 (by linarith)) (by norm_num)
  · have := mul_le_mul_of_nonneg_right h12
      (by linarith : (0 : ℚ) ≤ (data.length : ℚ) - 1)
    linarith
  · have := mul_le_mul_of_nonneg_right h100
      (by linarith : (0 : ℚ) ≤ (data.length : ℚ) - 1)
    linarith

/-- C7: on the same return series, `var_historical 0.01` is at least
`var_historical 0.05` whenever the series has at least 10 observations,
and both are NaN (`none`) otherwise. -/
theorem var_historical_antitone :
    ∀ c : RiskMetricsCalculator,
      (c.returns.length < 10 →
        var_historical c (1/100) = none ∧
        var_historical c (5/100) = none) ∧
      (10 ≤ c.returns.length →
        ∃ v1 v5, var_historical c (1/100) = some v1 ∧
          var_historical c (5/100) = some v5 ∧ v5 ≤ v1) := by
  intro c
  constructor
  · intro h
    constructor <;> simp [var_historical, h]
  · intro h
    have hnlt : ¬ c.returns.length < 10 := by omega
    refine ⟨-npPercentile c.returns (1/100 * 100),
      -npPercentile c.returns (5/100 * 100), ?_, ?_, ?_⟩
    · simp [var_historical, hnlt]
    · simp [var_historical, hnlt]
    · have hne : c.returns ≠ [] := by
        intro h0
        rw [h0] at h
        simp at h
      have h15 : npPercentile c.returns (1/100 * 100) ≤
          npPercentile c.returns (5/100 * 100) := by
        have := npPercentile_mono c.returns hne 1 5 (by norm_num)
          (by norm_num) (by norm_num)
        norm_num
        norm_num at this
        exact this
      linarith

/-- C7 witness: a ten-observation series where the 99%-confidence VaR
dominates the 95%-confidence one, and a short series yielding NaN. -/
theorem var_historical_antitone_witness :
    (∃ v1 v5,
      var_historical ⟨[1, 2, 3, 4, 5, 6, 7, 8, 9, 10], none⟩ (1/100) =
        some v1 ∧
      var_historical ⟨[1, 2, 3, 4, 5, 6, 7, 8, 9, 10], none⟩ (5/100) =
        some v5 ∧ v5 ≤ v1) ∧
    var_historical ⟨[1, 2], none⟩ (1/100) = none := by
  constructor
  · exact (var_historical_antitone
      ⟨[1, 2, 3, 4, 5, 6, 7, 8, 9, 10], none⟩).2 (by norm_num)
  · exact ((var_historical_antitone ⟨[1, 2], none⟩).1 (by norm_num)).1

/-- Any record produced by the search loop of `find_min_spread_horizon`
has the found-case key list, which lacks `num_windows_checked`. -/
theorem spreadSearchLoop_keys (a : SP500Analyzer) (y : ℤ) (t : ℝ)
    (start_idx : ℕ) :
    ∀ (fuel n : ℕ) (rec : HorizonRecord),
      spreadSearchLoop a y t start_idx n fuel = some rec →
      recordKeys rec = ["start_year_series", "threshold",
        "min_holding_years", "best_window", "best_cagr", "worst_window",
        "worst_cagr", "spread"] := by
  intro fuel
  induction fuel with
  | zero =>
    intro n rec h
    exact absurd h (by simp [spreadSearchLoop])
  | succ m ih =>
    intro n rec h
    simp only [spreadSearchLoop] at h
    split_ifs at h with h1 h2
    · exact ih _ _ h
    · rw [Option.some_inj] at h
      rw [← h]
      rfl
    · exact ih _ _ h

/-- With `start_year` present, `find_min_spread_horizon` returns a record
whose key list is one of the three shapes the code can build. -/
theorem find_min_spread_horizon_ok_shapes (a : SP500Analyzer) (y : ℤ)
    (t : ℝ) (hy : y ∈ a.years) :
    ∃ rec, find_min_spread_horizon a y t = .ok rec ∧
      (recordKeys rec = ["start_year_series", "threshold",
          "min_holding_years", "best_window", "best_cagr", "worst_window",
          "worst_cagr", "spread"] ∨
        recordKeys rec = ["start_year_series", "threshold",
          "min_holding_years", "best_window", "best_cagr", "worst_cagr",
          "spread", "note"] ∨
        recordKeys rec = ["start_year_series", "threshold",
          "min_holding_years", "best_window", "best_cagr", "worst_window",
          "worst_cagr", "spread", "note"]) := by
  rcases hfind : a.years.findIdx? (· == y) with _ | idx
  · rw [List.findIdx?_eq_none_iff] at hfind
    have := hfind y hy
    simp at this
  · rcases hloop : spreadSearchLoop a y t idx 1 (a.years.length - idx)
      with _ | rec
    · by_cases hc : compute_rolling_cagr a (a.years.length - idx) y = []
      · refine ⟨spreadNoFeasibleRecord y t, ?_, Or.inr (Or.inr rfl)⟩
        simp only [find_min_spread_horizon, hfind, hloop, hc, if_pos]
      · refine ⟨spreadNotMetRecord a y t idx (a.years.length - idx)
            (compute_rolling_cagr a (a.years.length - idx) y)
            ((compute_rolling_cagr a (a.years.length - idx) y).map
              Prod.snd)
            (listMax ((compute_rolling_cagr a (a.years.length - idx)
                y).map Prod.snd) -
              listMin ((compute_rolling_cagr a (a.years.length - idx)
                y).map Prod.snd)),
          ?_, Or.inr (Or.inl rfl)⟩
        simp [find_min_spread_horizon, hfind, hloop, hc]
    · exact ⟨rec, by simp only [find_min_spread_horizon, hfind, hloop],
        Or.inl (spreadSearchLoop_keys a y t idx _ _ _ hloop)⟩

/-- C1 counterexample: on a concrete one-year series, the record returned
by `find_min_spread_horizon` has no `num_windows_checked` key at all. -/
theorem spread_record_missing_num_windows :
    ∃ rec, find_min_spread_horizon ⟨[2000], [(1 : ℝ)/2]⟩ 2000 1 =
        .ok rec ∧
      "num_windows_checked" ∉ recordKeys rec := by
  obtain ⟨rec, hrec, hsh⟩ := find_min_spread_horizon_ok_shapes
    ⟨[2000], [(1 : ℝ)/2]⟩ 2000 1 (by decide)
  refine ⟨rec, hrec, ?_⟩
  rcases hsh with h | h | h <;> rw [h] <;> decide

/-- C1 (amended): when `start_year` is present the returned record never
contains `num_windows_checked`; it contains a `worst_window` entry in the
found case and in the no-feasible-windows case, but the
threshold-not-met fallback record omits `worst_window` (while keeping
`worst_cagr`, `spread` and `note`).  An absent `start_year` raises. -/
theorem find_min_spread_horizon_record_shape :
    ∀ (a : SP500Analyzer) (y : ℤ) (t : ℝ),
      (y ∉ a.years ∧ ∃ e, find_min_spread_horizon a y t = .error e) ∨
      (∃ rec, find_min_spread_horizon a y t = .ok rec ∧
        "num_windows_checked" ∉ recordKeys rec ∧
        (recordKeys rec = ["start_year_series", "threshold",
            "min_holding_years", "best_window", "best_cagr",
            "worst_window", "worst_cagr", "spread"] ∨
          recordKeys rec = ["start_year_series", "threshold",
            "min_holding_years", "best_window", "best_cagr", "worst_cagr",
            "spread", "note"] ∨
          recordKeys rec = ["start_year_series", "threshold",
            "min_holding_years", "best_window", "best_cagr",
            "worst_window", "worst_cagr", "spread", "note"]) ∧
        (recordKeys rec = ["start_year_series", "threshold",
            "min_holding_years", "best_window", "best_cagr", "worst_cagr",
            "spread", "note"] → "worst_window" ∉ recordKeys rec) ∧
        (recordKeys rec ≠ ["start_year_series", "threshold",
            "min_holding_years", "best_window", "best_cagr", "worst_cagr",
            "spread", "note"] → "worst_window" ∈ recordKeys rec)) := by
  intro a y t
  by_cases hy : y ∈ a.years
  · right
    obtain ⟨rec, hrec, hsh⟩ := find_min_spread_horizon_ok_shapes a y t hy
    refine ⟨rec, hrec, ?_, hsh, ?_, ?_⟩
    · rcases hsh with h | h | h <;> rw [h] <;> decide
    · intro h
      rw [h]
      decide
    · intro hne
      rcases hsh with h | h | h
      · rw [h]; decide
      · exact absurd h hne
      · rw [h]; decide
  · left
    have hnone : a.years.findIdx? (· == y) = none := by
      rw [List.findIdx?_eq_none_iff]
      intro x hx
      simp only [beq_eq_false_iff_ne, ne_eq]
      intro hxy
      exact hy (hxy ▸ hx)
    exact ⟨hy, "ValueError: start_year is not in list",
      by simp [find_min_spread_horizon, hnone]⟩

end SP500
